import Mathlib

/-!
Shallow embedding of the gotcc TCC transaction coordinator.

Sources embedded here:
- txmanager model (option.go / model part): `Transaction`, `ComponentTryEntity`,
  `NewTransaction`, `Transaction.getStatus`.
- txmanager coordinator (txmanager.go): `TXManager.Transaction`, `twoPhaseCommit`,
  `getComponents`, `advanceProgress`, `backOffTick`.
- example mock participant (mockcomponent.go): `MockComponent.Try`,
  `MockComponent.Confirm`, `MockComponent.Cancel` over a key-value state.

Go `string`-typed status enums are modelled as `String` with the source's named
constants, so that the Go zero value `""` (which a freshly built struct carries)
is representable exactly as in the source.  `time.Time` / `time.Duration` are
modelled as `Int` (nanoseconds); `time.Duration` arithmetic wraps at 64 bits as
in Go, which is made explicit where it matters (`backOffTick`).
-/

namespace GoTCC

/-- Go constant `TXHanging TXStatus = "hanging"`. -/
def TXHanging : String := "hanging"

/-- Go constant `TXSuccessful TXStatus = "successful"`. -/
def TXSuccessful : String := "successful"

/-- Go constant `TXFailure TXStatus = "failure"`. -/
def TXFailure : String := "failure"

/-- Go constant `TryHanging ComponentTryStatus = "hanging"`. -/
def TryHanging : String := "hanging"

/-- Go constant `TrySucceesful ComponentTryStatus = "successful"` (sic, source spelling). -/
def TrySucceesful : String := "successful"

/-- Go constant `TryFailure ComponentTryStatus = "failure"`. -/
def TryFailure : String := "failure"

/-- Go struct `ComponentTryEntity { ComponentID string; TryStatus ComponentTryStatus }`. -/
structure ComponentTryEntity where
  ComponentID : String
  TryStatus : String
  deriving DecidableEq, Repr

/-- Go struct `Transaction { TXID string; Components []*ComponentTryEntity; Status TXStatus; CreatedAt time.Time }`.
`CreatedAt` is an instant modelled as `Int`; `t.CreatedAt.Before(u)` is `t.CreatedAt < u`. -/
structure Transaction where
  TXID : String
  Components : List ComponentTryEntity
  Status : String
  CreatedAt : Int
  deriving DecidableEq, Repr

/-- Go struct `ComponentEntity { Request map[string]interface{}; Component TCCComponent }`.
The opaque request payload is modelled as a `String`; of the component interface
value only its identity `Component.ID()` is relevant to the embedded code, kept
here as the field `ComponentID`. -/
structure ComponentEntity where
  Request : String
  ComponentID : String
  deriving DecidableEq, Repr

/-- Go `NewTransaction(txID, componentEntities)`: builds the record with one
`ComponentTryEntity` per component.  The source initialises only `ComponentID`
in the struct literal, so `TryStatus` is the Go zero value `""` — likewise
`Status` and `CreatedAt` of the transaction itself are zero values. -/
def NewTransaction (txID : String) (componentEntities : List ComponentEntity) : Transaction :=
  { TXID := txID
    Components := componentEntities.map (fun ce =>
      { ComponentID := ce.ComponentID, TryStatus := "" })
    Status := ""
    CreatedAt := 0 }

/-- The loop body of `Transaction.getStatus`: walks `Components` carrying the
`hangingExist` accumulator; returns `TXFailure` at the first component whose
`TryStatus` is `TryFailure`, and accumulates `hangingExist || (TryStatus != TrySucceesful)`. -/
def getStatusLoop : List ComponentTryEntity → Bool → String
  | [], hangingExist => if hangingExist then TXHanging else TXSuccessful
  | c :: rest, hangingExist =>
    if c.TryStatus = TryFailure then TXFailure
    else getStatusLoop rest (hangingExist || decide (c.TryStatus ≠ TrySucceesful))

/-- Go `(t *Transaction) getStatus(createdBefore time.Time) TXStatus`:
if `t.CreatedAt.Before(createdBefore)` the result is `TXFailure` unconditionally
(the recorded `t.Status` is never consulted); otherwise the component loop decides. -/
def Transaction.getStatus (t : Transaction) (createdBefore : Int) : String :=
  if t.CreatedAt < createdBefore then TXFailure
  else getStatusLoop t.Components false

/-- Status derivation exactly as the spec sentence of C3 words it (a refinement
reference, not a translation of the source): timeout forces FAILURE only when
the transaction is not already SUCCESSFUL, and HANGING requires some try status
to literally be HANGING. -/
def getStatusSpecC3 (t : Transaction) (createdBefore : Int) : String :=
  if t.CreatedAt < createdBefore ∧ t.Status ≠ TXSuccessful then TXFailure
  else if t.Components.any (fun c => decide (c.TryStatus = TryFailure)) then TXFailure
  else if t.Components.any (fun c => decide (c.TryStatus = TryHanging)) then TXHanging
  else TXSuccessful

/-- The status derivation the source actually implements, written without the
accumulator loop: timeout forces FAILURE regardless of the recorded status, and
anything other than SUCCESSFUL (including the zero value `""`) counts as hanging. -/
def getStatusAmendedC3 (t : Transaction) (createdBefore : Int) : String :=
  if t.CreatedAt < createdBefore then TXFailure
  else if t.Components.any (fun c => decide (c.TryStatus = TryFailure)) then TXFailure
  else if t.Components.any (fun c => decide (c.TryStatus ≠ TrySucceesful)) then TXHanging
  else TXSuccessful

lemma getStatusLoop_eq (comps : List ComponentTryEntity) (acc : Bool) :
    getStatusLoop comps acc =
      if comps.any (fun c => decide (c.TryStatus = TryFailure)) then TXFailure
      else if acc || comps.any (fun c => decide (c.TryStatus ≠ TrySucceesful)) then TXHanging
      else TXSuccessful := by
  induction comps generalizing acc with
  | nil => simp [getStatusLoop]
  | cons c rest ih =>
    by_cases hf : c.TryStatus = TryFailure
    · simp [getStatusLoop, hf]
    · simp only [getStatusLoop, if_neg hf, ih, List.any_cons, decide_eq_true_eq, hf,
        decide_False, Bool.false_or, Bool.or_assoc]
      simp

lemma getStatus_eq_successful_iff (t : Transaction) (createdBefore : Int) :
    t.getStatus createdBefore = TXSuccessful ↔
      ¬ t.CreatedAt < createdBefore ∧ ∀ c ∈ t.Components, c.TryStatus = TrySucceesful := by
  unfold Transaction.getStatus
  by_cases h : t.CreatedAt < createdBefore
  · rw [if_pos h]
    constructor
    · intro habs; exact absurd habs (by decide)
    · rintro ⟨hna, -⟩; exact absurd h hna
  · rw [if_neg h, getStatusLoop_eq]
    by_cases hfail : (t.Components.any fun c => decide (c.TryStatus = TryFailure)) = true
    · rw [if_pos hfail]
      rcases List.any_eq_true.mp hfail with ⟨c, hc, hcf⟩
      simp only [decide_eq_true_eq] at hcf
      constructor
      · intro habs; exact absurd habs (by decide)
      · rintro ⟨-, hall⟩
        have hcs := hall c hc
        rw [hcf] at hcs
        exact absurd hcs (by decide)
    · rw [if_neg hfail]
      by_cases hhang : (t.Components.any fun c => decide (c.TryStatus ≠ TrySucceesful)) = true
      · rw [if_pos (by simpa using hhang)]
        rcases List.any_eq_true.mp hhang with ⟨c, hc, hcne⟩
        simp only [decide_eq_true_eq] at hcne
        constructor
        · intro habs; exact absurd habs (by decide)
        · rintro ⟨-, hall⟩; exact absurd (hall c hc) hcne
      · rw [if_neg (by simpa using hhang)]
        simp only [List.any_eq_true, decide_eq_true_eq] at hhang
        push_neg at hhang
        exact ⟨fun _ => ⟨h, hhang⟩, fun _ => rfl⟩

/-- C3 counterexample input: already marked successful, timed out, every try successful. -/
def txC3 : Transaction :=
  { TXID := "t1"
    Components := [{ ComponentID := "a", TryStatus := TrySucceesful }]
    Status := TXSuccessful
    CreatedAt := 0 }

/-- C3 is false as stated: for `txC3` (recorded status SUCCESSFUL, created before
the cutoff, all try statuses SUCCESSFUL) the spec's rule derives SUCCESSFUL (the
timeout clause is skipped because the status is already SUCCESSFUL), but the code
returns FAILURE — `getStatus` never consults the recorded status. -/
theorem C3_counterexample :
    txC3.Status = TXSuccessful ∧ txC3.CreatedAt < 1 ∧
    getStatusSpecC3 txC3 1 = TXSuccessful ∧
    Transaction.getStatus txC3 1 = TXFailure ∧
    Transaction.getStatus txC3 1 ≠ getStatusSpecC3 txC3 1 := by
  refine ⟨rfl, by decide, by decide, by decide, by decide⟩

/-- C3 (amended): `Transaction.getStatus` derives FAILURE if `created_at` is
strictly before the cutoff regardless of the recorded transaction status; else
FAILURE if some participant's try status is FAILURE; else HANGING if some
participant's try status is anything other than SUCCESSFUL; else SUCCESSFUL. -/
theorem C3_getStatus_amended (t : Transaction) (createdBefore : Int) :
    t.getStatus createdBefore = getStatusAmendedC3 t createdBefore := by
  unfold Transaction.getStatus getStatusAmendedC3
  by_cases h : t.CreatedAt < createdBefore
  · simp [h]
  · simp [h, getStatusLoop_eq]

/-- C6 is false as stated: the entity produced by `NewTransaction` carries the
Go zero value `""` as `TryStatus`, not the `TryHanging` constant `"hanging"`. -/
theorem C6_counterexample :
    (NewTransaction "tx" [{ Request := "p", ComponentID := "a" }]).Components
      = [{ ComponentID := "a", TryStatus := "" }] ∧
    ("" : String) ≠ TryHanging := by
  refine ⟨rfl, by decide⟩

/-- C6 (amended): every `ComponentTryEntity` produced by `NewTransaction` has
`TryStatus` equal to the empty string (the Go zero value), which is not the
`TryHanging` constant but is classified by `getStatus` as not-yet-successful. -/
theorem C6_newTransaction_amended (txID : String) (ces : List ComponentEntity) :
    ∀ c ∈ (NewTransaction txID ces).Components,
      c.TryStatus = "" ∧ c.TryStatus ≠ TryHanging ∧ c.TryStatus ≠ TrySucceesful := by
  intro c hc
  simp only [NewTransaction, List.mem_map] at hc
  rcases hc with ⟨ce, _, rfl⟩
  refine ⟨rfl, ?_, ?_⟩
  · show ("" : String) ≠ TryHanging
    decide
  · show ("" : String) ≠ TrySucceesful
    decide

theorem C6_newTransaction_amended_witness :
    ({ ComponentID := "a", TryStatus := "" } : ComponentTryEntity).TryStatus = "" ∧
    ({ ComponentID := "a", TryStatus := "" } : ComponentTryEntity).TryStatus ≠ TryHanging ∧
    ({ ComponentID := "a", TryStatus := "" } : ComponentTryEntity).TryStatus ≠ TrySucceesful :=
  C6_newTransaction_amended "tx" [{ Request := "p", ComponentID := "a" }]
    { ComponentID := "a", TryStatus := "" } (by simp [NewTransaction])

/-- C10: a transaction with an empty component list whose `CreatedAt` is not
strictly before the cutoff is derived SUCCESSFUL by `getStatus` (the loop over
zero components leaves `hangingExist` false). -/
theorem C10_empty_not_timed_out (t : Transaction) (createdBefore : Int)
    (hcomps : t.Components = []) (hage : ¬ t.CreatedAt < createdBefore) :
    t.getStatus createdBefore = TXSuccessful := by
  unfold Transaction.getStatus
  simp [hage, hcomps, getStatusLoop]

theorem C10_empty_not_timed_out_witness :
    Transaction.getStatus { TXID := "t", Components := [], Status := "", CreatedAt := 0 } 0
      = TXSuccessful :=
  C10_empty_not_timed_out _ 0 rfl (by decide)

/-- Two's-complement wraparound into int64.  Go `time.Duration` is an int64 and
its arithmetic (including left shifts) discards high bits, so the embedding
makes the truncation explicit. -/
def wrap64 (x : Int) : Int := (x + 2 ^ 63) % 2 ^ 64 - 2 ^ 63

/-- Go `(t *TXManager) backOffTick(tick time.Duration) time.Duration`:
doubles `tick` (`tick <<= 1`), computes `threshold := t.opts.MonitorTick << 3`,
and returns `threshold` when `tick > threshold`, else the doubled `tick`. -/
def TXManager.backOffTick (monitorTick tick : Int) : Int :=
  let tick2 := wrap64 (tick * 2)
  let threshold := wrap64 (monitorTick * 8)
  if tick2 > threshold then threshold else tick2

lemma wrap64_eq_of_range (x : Int) (h1 : -(2 ^ 63) ≤ x) (h2 : x < 2 ^ 63) :
    wrap64 x = x := by
  unfold wrap64
  omega

/-- C9 is false as stated: for the positive duration `2^62` (with MonitorTick 10)
the doubling `2 * 2^62 = 2^63` overflows int64 and the code returns `-2^63`,
not the cap `8 × MonitorTick = 80` that the claim requires. -/
theorem C9_counterexample :
    (0 : Int) < 2 ^ 62 ∧ ¬ ((2 * 2 ^ 62 : Int) ≤ 8 * 10) ∧
    TXManager.backOffTick 10 (2 ^ 62) = -(2 ^ 63) ∧
    TXManager.backOffTick 10 (2 ^ 62) ≠ 8 * 10 := by
  refine ⟨by decide, by decide, by decide, by decide⟩

/-- C9 (amended): for every positive duration `tick` and positive `MonitorTick`
such that neither `2 * tick` nor `8 * MonitorTick` overflows int64, `backOffTick`
returns the doubled tick capped at `8 × MonitorTick`. -/
theorem C9_backOffTick_amended (monitorTick tick : Int)
    (h1 : 0 < tick) (h2 : 2 * tick < 2 ^ 63)
    (h3 : 0 < monitorTick) (h4 : 8 * monitorTick < 2 ^ 63) :
    TXManager.backOffTick monitorTick tick =
      if 8 * monitorTick < 2 * tick then 8 * monitorTick else 2 * tick := by
  simp only [TXManager.backOffTick]
  rw [wrap64_eq_of_range (tick * 2) (by omega) (by omega),
      wrap64_eq_of_range (monitorTick * 8) (by omega) (by omega)]
  split_ifs <;> omega

theorem C9_backOffTick_amended_witness :
    TXManager.backOffTick 10 3 = 6 ∧ TXManager.backOffTick 10 50 = 80 := by
  have h1 := C9_backOffTick_amended 10 3 (by decide) (by decide) (by decide) (by decide)
  have h2 := C9_backOffTick_amended 10 50 (by decide) (by decide) (by decide) (by decide)
  norm_num at h1 h2
  exact ⟨h1, h2⟩

/-! ### Mock participant (example/mockcomponent.go)

The participant keeps per-`(componentID, txID)` state in a key-value store:
- the tx key (`BuildTXKey`) holds the observed phase, one of the strings
  `"tried"`, `"confirmed"`, `"canceled"`; absence of the key is the `ErrNil`
  answer from `Get`, modelled as `none`;
- the tx-detail key (`BuildTXDetailKey`) holds the `bizID` written by `Try`;
- the data keys (`BuildDataKey`, one per `bizID`) hold `"frozen"` or
  `"successful"`, modelled as an association list.

The per-tx lock acquired at the top of each operation serialises calls and is
identity in this sequential embedding; `Get`/`Set`/`SetNX`/`Del` are modelled as
never failing except for `Get`'s `ErrNil` on an absent key. -/

/-- Participant-side tx status strings (`TXTried`, `TXConfirmed`, `TXCanceled`). -/
inductive MockTXStatus
  | tried
  | confirmed
  | canceled
  deriving DecidableEq, Repr

/-- Data status strings (`DataFrozen`, `DataSuccessful`). -/
inductive DataStatus
  | frozen
  | successful
  deriving DecidableEq, Repr

/-- Go struct `TCCResp { ComponentID string; ACK bool; TXID string }`. -/
structure TCCResp where
  ComponentID : String
  ACK : Bool
  TXID : String
  deriving DecidableEq, Repr

/-- The key-value state a `MockComponent` holds for one `(componentID, txID)` pair. -/
structure CompState where
  txStatus : Option MockTXStatus
  txDetail : Option String
  data : List (String × DataStatus)
  deriving DecidableEq, Repr

/-- Value of the data key for `bizID` (Redis `Get`). -/
def getData (s : CompState) (bizID : String) : Option DataStatus :=
  (s.data.find? (fun e => e.1 == bizID)).map (fun e => e.2)

/-- Overwrite the data key for `bizID` (Redis `Set`). -/
def setData (s : CompState) (bizID : String) (v : DataStatus) : CompState :=
  { s with data := (bizID, v) :: s.data.filter (fun e => e.1 != bizID) }

/-- Remove the data key for `bizID` (Redis `Del`). -/
def delData (s : CompState) (bizID : String) : CompState :=
  { s with data := s.data.filter (fun e => e.1 != bizID) }

/-- Go `(m *MockComponent) Try(ctx, req)`: dedups on the recorded tx status
(`tried`/`confirmed` replay acks, `canceled` is rejected), then writes the
detail key, freezes the data key from scratch via `SetNX` (rejecting when it
already exists), and records `tried`. -/
def MockComponent.Try (id txID : String) (s : CompState) (bizID : String) :
    Except String (TCCResp × CompState) :=
  let res : TCCResp := { ComponentID := id, ACK := false, TXID := txID }
  match s.txStatus with
  | some .tried => .ok ({ res with ACK := true }, s)
  | some .confirmed => .ok ({ res with ACK := true }, s)
  | some .canceled => .ok (res, s)
  | none =>
    -- the detail key is written before the SetNX, also on the rejection path
    let s1 := { s with txDetail := some bizID }
    if (getData s1 bizID).isSome then
      .ok (res, s1)
    else
      let s2 := setData s1 bizID .frozen
      .ok ({ res with ACK := true }, { s2 with txStatus := some .tried })

/-- Go `(m *MockComponent) Confirm(ctx, txID)`: `Get` of the tx key propagates
any error, including `ErrNil` on an absent key; `confirmed` replays ack, only
`tried` proceeds, every other recorded value is rejected with a non-error
response; then the frozen data is promoted to successful. -/
def MockComponent.Confirm (id txID : String) (s : CompState) :
    Except String (TCCResp × CompState) :=
  match s.txStatus with
  | none => .error "redis: nil"
  | some st =>
    let res : TCCResp := { ComponentID := id, ACK := false, TXID := txID }
    match st with
    | .confirmed => .ok ({ res with ACK := true }, s)
    | .canceled => .ok (res, s)
    | .tried =>
      match s.txDetail with
      | none => .error "redis: nil"
      | some bizID =>
        match getData s bizID with
        | none => .error "redis: nil"
        | some ds =>
          if ds ≠ DataStatus.frozen then .ok (res, s)
          else
            let s1 := setData s bizID .successful
            .ok ({ res with ACK := true }, { s1 with txStatus := some .confirmed })

/-- Go `(m *MockComponent) Cancel(ctx, txID)`: errors on a `confirmed` status;
then reads the detail key with the condition
`if err != nil && errors.Is(err, redis_lock.ErrNil) { return nil, err }`,
which returns the `ErrNil` error exactly when the detail key is absent (note the
missing negation compared with the other `Get` call sites); otherwise deletes
the frozen data key (when the bizID is non-empty) and records `canceled`. -/
def MockComponent.Cancel (id txID : String) (s : CompState) :
    Except String (TCCResp × CompState) :=
  if s.txStatus = some MockTXStatus.confirmed then
    .error "invalid tx status"
  else
    match s.txDetail with
    | none => .error "redis: nil"
    | some bizID =>
      let s1 := if bizID ≠ "" then delData s bizID else s
      .ok ({ ComponentID := id, ACK := true, TXID := txID },
           { s1 with txStatus := some .canceled })

/-- C5 is false as stated: after a Try and a Cancel the recorded tx status is
`canceled`, and the subsequent Confirm returns a plain non-error response with
`ack = false` (the `default` branch of the status switch), not an error. -/
theorem C5_counterexample :
    MockComponent.Try "m" "t" { txStatus := none, txDetail := none, data := [] } "b"
      = .ok ({ ComponentID := "m", ACK := true, TXID := "t" },
             { txStatus := some .tried, txDetail := some "b", data := [("b", .frozen)] })
    ∧ MockComponent.Cancel "m" "t"
        { txStatus := some .tried, txDetail := some "b", data := [("b", .frozen)] }
      = .ok ({ ComponentID := "m", ACK := true, TXID := "t" },
             { txStatus := some .canceled, txDetail := some "b", data := [] })
    ∧ MockComponent.Confirm "m" "t"
        { txStatus := some .canceled, txDetail := some "b", data := [] }
      = .ok ({ ComponentID := "m", ACK := false, TXID := "t" },
             { txStatus := some .canceled, txDetail := some "b", data := [] }) := by
  refine ⟨rfl, rfl, rfl⟩

/-- C5 (amended): from every participant state whose recorded tx status is
`canceled`, Confirm returns a non-error response with `ack = false` (an in-band
rejection), leaving the state unchanged — it does not signal an error. -/
theorem C5_confirm_after_cancel_amended (id txID : String) (s : CompState)
    (h : s.txStatus = some MockTXStatus.canceled) :
    MockComponent.Confirm id txID s
      = .ok ({ ComponentID := id, ACK := false, TXID := txID }, s) := by
  unfold MockComponent.Confirm
  rw [h]

theorem C5_confirm_after_cancel_amended_witness :
    MockComponent.Confirm "m" "t" { txStatus := some .canceled, txDetail := none, data := [] }
      = .ok ({ ComponentID := "m", ACK := false, TXID := "t" },
             { txStatus := some .canceled, txDetail := none, data := [] }) :=
  C5_confirm_after_cancel_amended "m" "t"
    { txStatus := some .canceled, txDetail := none, data := [] } rfl

/-- C7 evaluated on the code: Cancel from a `confirmed` status errors as claimed,
but Cancel from the fresh state (nothing recorded, detail key absent) returns
the store's nil-value error instead of acking and recording `canceled` — the
detail-key read uses `err != nil && errors.Is(err, ErrNil)` where every other
call site of the file uses the negated `!errors.Is`, contradicting the comment
above it (any non-confirmed status is unconditionally set to canceled). -/
theorem C7_cancel_evaluation :
    MockComponent.Cancel "m" "t"
        { txStatus := some .confirmed, txDetail := some "b", data := [("b", .successful)] }
      = .error "invalid tx status"
    ∧ MockComponent.Cancel "m" "t" { txStatus := none, txDetail := none, data := [] }
      = .error "redis: nil" := by
  refine ⟨rfl, rfl⟩

/-- C8 evaluated on the code: from the fresh state, Cancel fails with the
nil-value error and installs no tombstone (the state is unchanged), so the
subsequent Try for the same tx id acks `true` and freezes the data — the
claimed tombstone rejection (`ack = false`) does not happen. -/
theorem C8_cancel_then_try_evaluation :
    MockComponent.Cancel "m" "t" { txStatus := none, txDetail := none, data := [] }
      = .error "redis: nil"
    ∧ MockComponent.Try "m" "t" { txStatus := none, txDetail := none, data := [] } "b"
      = .ok ({ ComponentID := "m", ACK := true, TXID := "t" },
             { txStatus := some .tried, txDetail := some "b", data := [("b", .frozen)] }) := by
  refine ⟨rfl, rfl⟩

/-! ### Coordinator phase 2 (advanceProgress)

`advanceProgress` is sequential code over injected collaborators (registry,
components, store).  The embedding abstracts the collaborators as functions:
`registered` says whether the registry lookup for a component id succeeds,
`callRes op id` is the outcome of the phase-2 call (`none` models a returned
error, `some b` a response with `ACK = b`), and `submitRes success` is the
error returned by `TXSubmit`. -/

/-- The two phase-2 closures `advanceProgress` can select. -/
inductive Phase2Op
  | confirm
  | cancel
  deriving DecidableEq, Repr

/-- The operation selected from the derived status: the Confirm closure when the
status is `TXSuccessful` (`success := txStatus == TXSuccessful`), else Cancel. -/
def chosenOp (txStatus : String) : Phase2Op :=
  if txStatus = TXSuccessful then .confirm else .cancel

/-- Observable result of one `advanceProgress` run: the phase-2 calls issued in
order, the `success` argument of the `TXSubmit` call when it was reached, and
the returned error. -/
structure AdvanceResult where
  calls : List (Phase2Op × String)
  submitted : Option Bool
  err : Option String
  deriving DecidableEq, Repr

/-- The component loop of `advanceProgress`: for each `ComponentTryEntity` in
stored order, look the component up in the registry (failure aborts with an
error before any call), issue the chosen phase-2 call, abort on a call error or
on `ACK = false`; when the loop completes, `TXSubmit(txID, success)` is invoked
and its error is returned. -/
def advanceLoop (op : Phase2Op) (registered : String → Bool)
    (callRes : Phase2Op → String → Option Bool) (success : Bool)
    (submitRes : Bool → Option String) :
    List ComponentTryEntity → List (Phase2Op × String) → AdvanceResult
  | [], acc =>
    { calls := acc.reverse, submitted := some success, err := submitRes success }
  | c :: rest, acc =>
    if registered c.ComponentID then
      match callRes op c.ComponentID with
      | none =>
        { calls := acc.reverse ++ [(op, c.ComponentID)], submitted := none,
          err := some "component call error" }
      | some ack =>
        if ack then
          advanceLoop op registered callRes success submitRes rest ((op, c.ComponentID) :: acc)
        else
          { calls := acc.reverse ++ [(op, c.ComponentID)], submitted := none,
            err := some "ack failed" }
    else
      { calls := acc.reverse, submitted := none, err := some "get tcc component failed" }

/-- Go `(t *TXManager) advanceProgress(tx *Transaction) error`: derive the
status with cutoff `now - Timeout`; a `TXHanging` transaction is skipped with a
nil error; otherwise run the component loop with the chosen operation and
`success := (txStatus == TXSuccessful)`. -/
def TXManager.advanceProgress (tx : Transaction) (createdBefore : Int)
    (registered : String → Bool) (callRes : Phase2Op → String → Option Bool)
    (submitRes : Bool → Option String) : AdvanceResult :=
  let txStatus := tx.getStatus createdBefore
  if txStatus = TXHanging then
    { calls := [], submitted := none, err := none }
  else
    advanceLoop (chosenOp txStatus) registered callRes
      (decide (txStatus = TXSuccessful)) submitRes tx.Components []

/-- A component for which the registry lookup and the phase-2 call both
succeed with `ACK = true`. -/
def phase2Ok (registered : String → Bool) (callRes : Phase2Op → String → Option Bool)
    (op : Phase2Op) (c : ComponentTryEntity) : Bool :=
  registered c.ComponentID && (callRes op c.ComponentID == some true)

lemma advanceLoop_spec (op : Phase2Op) (registered : String → Bool)
    (callRes : Phase2Op → String → Option Bool) (success : Bool)
    (submitRes : Bool → Option String) :
    ∀ (comps : List ComponentTryEntity) (acc : List (Phase2Op × String)),
      (∃ n, (advanceLoop op registered callRes success submitRes comps acc).calls
          = acc.reverse ++ (comps.take n).map (fun c => (op, c.ComponentID)))
      ∧ (∀ s, (advanceLoop op registered callRes success submitRes comps acc).submitted = some s →
          s = success
          ∧ (advanceLoop op registered callRes success submitRes comps acc).calls
              = acc.reverse ++ comps.map (fun c => (op, c.ComponentID))
          ∧ ∀ c ∈ comps, phase2Ok registered callRes op c = true)
      ∧ ((∃ c ∈ comps, phase2Ok registered callRes op c = false) →
          (advanceLoop op registered callRes success submitRes comps acc).err.isSome = true
          ∧ (advanceLoop op registered callRes success submitRes comps acc).submitted = none) := by
  intro comps
  induction comps with
  | nil =>
    intro acc
    refine ⟨⟨0, by simp [advanceLoop]⟩, ?_, ?_⟩
    · intro s hs
      simp only [advanceLoop, Option.some.injEq] at hs
      subst hs
      simp [advanceLoop]
    · rintro ⟨c, hc, -⟩
      exact absurd hc (List.not_mem_nil c)
  | cons c rest ih =>
    intro acc
    by_cases hreg : registered c.ComponentID
    · cases hcall : callRes op c.ComponentID with
      | none =>
        refine ⟨⟨1, ?_⟩, ?_, ?_⟩
        · simp [advanceLoop, hreg, hcall]
        · intro s hs
          simp [advanceLoop, hreg, hcall] at hs
        · intro _
          simp [advanceLoop, hreg, hcall]
      | some ack =>
        cases ack with
        | false =>
          refine ⟨⟨1, ?_⟩, ?_, ?_⟩
          · simp [advanceLoop, hreg, hcall]
          · intro s hs
            simp [advanceLoop, hreg, hcall] at hs
          · intro _
            simp [advanceLoop, hreg, hcall]
        | true =>
          have hstep : advanceLoop op registered callRes success submitRes (c :: rest) acc
              = advanceLoop op registered callRes success submitRes rest
                  ((op, c.ComponentID) :: acc) := by
            simp [advanceLoop, hreg, hcall]
          obtain ⟨⟨n, hn⟩, hsub, herr⟩ := ih ((op, c.ComponentID) :: acc)
          have hcok : phase2Ok registered callRes op c = true := by
            simp [phase2Ok, hreg, hcall]
          refine ⟨⟨n + 1, ?_⟩, ?_, ?_⟩
          · rw [hstep, hn]
            simp [List.take_succ_cons]
          · intro s hs
            rw [hstep] at hs
            obtain ⟨hs1, hs2, hs3⟩ := hsub s hs
            refine ⟨hs1, ?_, ?_⟩
            · rw [hstep, hs2]; simp
            · intro c' hc'
              rcases List.mem_cons.mp hc' with rfl | hc'
              · exact hcok
              · exact hs3 c' hc'
          · rintro ⟨c', hc', hbad⟩
            rcases List.mem_cons.mp hc' with rfl | hc'
            · rw [hcok] at hbad; exact absurd hbad (by simp)
            · rw [hstep]
              exact herr ⟨c', hc', hbad⟩
    · refine ⟨⟨0, by simp [advanceLoop, hreg]⟩, ?_, ?_⟩
      · intro s hs
        simp [advanceLoop, hreg] at hs
      · intro _
        simp [advanceLoop, hreg]

/-- C2: for every transaction record and collaborator behaviour, the phase-2
calls of `advanceProgress` are the chosen operation (Confirm iff the derived
status is `TXSuccessful`, else Cancel) applied to a prefix of the transaction's
components in stored order; `TXSubmit(txID, success = (status == TXSuccessful))`
is reached only when every component's registry lookup and phase-2 call
succeeded with `ACK = true` (with every component called, in order); any failing
lookup or call makes `advanceProgress` return an error without calling
`TXSubmit`; and a submit with `success = true` implies every recorded
`try_status` is `TrySucceesful`. -/
theorem C2_advanceProgress (tx : Transaction) (createdBefore : Int)
    (registered : String → Bool) (callRes : Phase2Op → String → Option Bool)
    (submitRes : Bool → Option String) (r : AdvanceResult)
    (hr : r = TXManager.advanceProgress tx createdBefore registered callRes submitRes) :
    (∃ n, r.calls = (tx.Components.take n).map
        (fun c => (chosenOp (tx.getStatus createdBefore), c.ComponentID)))
    ∧ (∀ s, r.submitted = some s →
        (s = true ↔ tx.getStatus createdBefore = TXSuccessful)
        ∧ r.calls = tx.Components.map
            (fun c => (chosenOp (tx.getStatus createdBefore), c.ComponentID))
        ∧ ∀ c ∈ tx.Components,
            phase2Ok registered callRes (chosenOp (tx.getStatus createdBefore)) c = true)
    ∧ (tx.getStatus createdBefore ≠ TXHanging →
        (∃ c ∈ tx.Components,
            phase2Ok registered callRes (chosenOp (tx.getStatus createdBefore)) c = false) →
        r.err.isSome = true ∧ r.submitted = none)
    ∧ (r.submitted = some true → ∀ c ∈ tx.Components, c.TryStatus = TrySucceesful) := by
  subst hr
  simp only [TXManager.advanceProgress]
  by_cases hst : tx.getStatus createdBefore = TXHanging
  · rw [if_pos hst]
    refine ⟨⟨0, by simp⟩, ?_, ?_, ?_⟩
    · intro s hs; exact absurd hs (by simp)
    · intro hne _; exact absurd hst hne
    · intro hs; exact absurd hs (by simp)
  · rw [if_neg hst]
    obtain ⟨hpre, hsub, herr⟩ := advanceLoop_spec (chosenOp (tx.getStatus createdBefore))
      registered callRes (decide (tx.getStatus createdBefore = TXSuccessful)) submitRes
      tx.Components []
    refine ⟨?_, ?_, ?_, ?_⟩
    · obtain ⟨n, hn⟩ := hpre
      exact ⟨n, by simpa using hn⟩
    · intro s hs
      obtain ⟨hs1, hs2, hs3⟩ := hsub s hs
      refine ⟨?_, by simpa using hs2, hs3⟩
      subst hs1
      simp
    · intro _ hex
      exact herr hex
    · intro hs
      obtain ⟨hs1, -, -⟩ := hsub true hs
      have hsucc : tx.getStatus createdBefore = TXSuccessful := by
        have := hs1.symm
        simpa using this
      exact ((getStatus_eq_successful_iff tx createdBefore).mp hsucc).2

theorem C2_advanceProgress_witness :
    (TXManager.advanceProgress
        { TXID := "t", Components := [{ ComponentID := "a", TryStatus := TrySucceesful }],
          Status := "", CreatedAt := 0 } 0
        (fun _ => true) (fun _ _ => some false) (fun _ => none)).err.isSome = true
    ∧ (TXManager.advanceProgress
        { TXID := "t", Components := [{ ComponentID := "a", TryStatus := TrySucceesful }],
          Status := "", CreatedAt := 0 } 0
        (fun _ => true) (fun _ _ => some false) (fun _ => none)).submitted = none :=
  (C2_advanceProgress
      { TXID := "t", Components := [{ ComponentID := "a", TryStatus := TrySucceesful }],
        Status := "", CreatedAt := 0 } 0
      (fun _ => true) (fun _ _ => some false) (fun _ => none) _ rfl).2.2.1
    (by decide)
    ⟨{ ComponentID := "a", TryStatus := TrySucceesful }, by decide, by decide⟩

/-! ### Coordinator entry (getComponents, twoPhaseCommit, Transaction)

`Transaction` runs validation (`getComponents`), then `CreateTX` on the store,
then the concurrent Try fan-out of `twoPhaseCommit`.  The store and the
participants are injected, so the embedding abstracts them as arguments:
`createRes` is the outcome of `CreateTX`, and `outcome id` is the per-component
phase-1 outcome observed by the fan-out goroutine. -/

/-- Error values of the coordinator entry path (Go `errors.New` / `fmt.Errorf`
values, by construction site). -/
inductive GoErr
  | emptyTask
  | repeatComponent (id : String)
  | notExisted (id : String)
  | invalidIDs
  | storeErr (msg : String)
  deriving DecidableEq, Repr

/-- Go struct `RequestEntity { ComponentID string; Request map[string]interface{} }`. -/
structure RequestEntity where
  ComponentID : String
  Request : String
  deriving DecidableEq, Repr

/-- The duplicate scan of `getComponents`: walk the requests in order keeping
the ids already seen (the keys of `idToReq`); the first id already present is
the `repeat component` error. -/
def findDup : List String → List String → Option String
  | _, [] => none
  | seen, id :: rest =>
    if seen.contains id then some id else findDup (id :: seen) rest

/-- Go `(r *registryCenter) getComponents(componentIDs ...string)`: collect the
registered components in id order, failing with `component id not existed` at
the first unregistered id.  Only the component identity is modelled. -/
def registryGetComponents (registered : String → Bool) :
    List String → Except GoErr (List String)
  | [] => .ok []
  | id :: rest =>
    if registered id then
      match registryGetComponents registered rest with
      | .ok comps => .ok (id :: comps)
      | .error e => .error e
    else .error (.notExisted id)

/-- Go `(t *TXManager) getComponents(ctx, reqs ...*RequestEntity)`: reject an
empty request set, then duplicates, then look all ids up in the registry, check
the length, and pair each component with its request from `idToReq`. -/
def TXManager.getComponents (registered : String → Bool)
    (reqs : List RequestEntity) : Except GoErr (List ComponentEntity) :=
  if reqs.length = 0 then .error .emptyTask
  else
    match findDup [] (reqs.map (fun rq => rq.ComponentID)) with
    | some d => .error (.repeatComponent d)
    | none =>
      match registryGetComponents registered (reqs.map (fun rq => rq.ComponentID)) with
      | .error e => .error e
      | .ok comps =>
        if (reqs.map (fun rq => rq.ComponentID)).length ≠ comps.length then
          .error .invalidIDs
        else
          .ok (comps.map (fun cid =>
            { Request := (match reqs.find? (fun rq => rq.ComponentID == cid) with
                          | some rq => rq.Request
                          | none => ""),
              ComponentID := cid }))

/-- Per-participant phase-1 outcome seen by the Try fan-out goroutine: whether
`Try` returned an error, the response's `ACK`, and whether the
`TXUpdate(accept=true)` write succeeded.  (The error of the
`TXUpdate(accept=false)` write on the failure path is only logged.) -/
structure TryOutcome where
  tryErr : Bool
  ack : Bool
  updateOk : Bool
  deriving DecidableEq, Repr

/-- A participant that pushes no error into `errCh`: Try returned without error,
acked, and the log update succeeded. -/
def phase1Ok (o : TryOutcome) : Bool := !o.tryErr && o.ack && o.updateOk

/-- Go `(t *TXManager) twoPhaseCommit(ctx, txID, componentEntities)`: the parent
goroutine reads `errCh`; a received error flips `successful` to false and
cancels the sibling Tries, but the function ends with `return successful, nil` —
the error itself is never returned to the caller. -/
def TXManager.twoPhaseCommit (outcomes : List TryOutcome) : Bool × Option GoErr :=
  let failed := outcomes.any (fun o => !(phase1Ok o))
  (!failed, none)

/-- Observable result of one `TXManager.Transaction` call: whether `CreateTX`
was reached, the components whose Try fan-out was started, and the returned
`(bool, error)` pair. -/
structure TxCallResult where
  createCalled : Bool
  trysStarted : List String
  success : Bool
  err : Option GoErr
  deriving DecidableEq, Repr

/-- Go `(t *TXManager) Transaction(ctx, reqs ...*RequestEntity) (bool, error)`:
`getComponents` (an error is returned before any side effect), then `CreateTX`
(its error is returned with no Try started), then `twoPhaseCommit`. -/
def TXManager.Transaction (registered : String → Bool) (reqs : List RequestEntity)
    (createRes : Except GoErr String) (outcome : String → TryOutcome) : TxCallResult :=
  match TXManager.getComponents registered reqs with
  | .error e => { createCalled := false, trysStarted := [], success := false, err := some e }
  | .ok entities =>
    match createRes with
    | .error e => { createCalled := true, trysStarted := [], success := false, err := some e }
    | .ok _txID =>
      let p := TXManager.twoPhaseCommit (entities.map (fun ent => outcome ent.ComponentID))
      { createCalled := true, trysStarted := entities.map (fun ent => ent.ComponentID),
        success := p.1, err := p.2 }

/-- C1 is false as stated: with one registered participant whose Try is rejected
(`ack = false`, log update fine) phase 1 fails, yet `Transaction` returns
`success = false` together with a **nil** error — `twoPhaseCommit` consumes the
`errCh` error only to flip the boolean and ends with `return successful, nil`. -/
theorem C1_counterexample :
    phase1Ok { tryErr := false, ack := false, updateOk := true } = false
    ∧ TXManager.Transaction (fun s => s == "a") [{ ComponentID := "a", Request := "p" }]
        (.ok "tx1") (fun _ => { tryErr := false, ack := false, updateOk := true })
      = { createCalled := true, trysStarted := ["a"], success := false, err := none } := by
  refine ⟨rfl, rfl⟩

/-- C1 (amended): when validation and `CreateTX` succeed, `Transaction` always
returns a nil error — phase-1 failure yields `(false, nil)`, not a non-nil
error — and its boolean is true exactly when every participant accepted Try and
every log update succeeded; conversely `success = true` is only reached when
validation and `CreateTX` succeeded and every participant's phase 1 was clean. -/
theorem C1_transaction_amended (registered : String → Bool) (reqs : List RequestEntity)
    (createRes : Except GoErr String) (outcome : String → TryOutcome) (r : TxCallResult)
    (hr : r = TXManager.Transaction registered reqs createRes outcome) :
    (∀ entities, TXManager.getComponents registered reqs = .ok entities →
      ∀ txID, createRes = .ok txID →
        r.err = none
        ∧ (r.success = true
            ↔ entities.all (fun ent => phase1Ok (outcome ent.ComponentID)) = true))
    ∧ (r.success = true →
        ∃ entities txID, TXManager.getComponents registered reqs = .ok entities
          ∧ createRes = .ok txID
          ∧ entities.all (fun ent => phase1Ok (outcome ent.ComponentID)) = true) := by
  subst hr
  unfold TXManager.Transaction
  cases hg : TXManager.getComponents registered reqs with
  | error e =>
    refine ⟨?_, ?_⟩
    · intro entities he
      exact absurd he (by simp)
    · intro hs
      exact absurd hs (by simp)
  | ok entities0 =>
    cases hc : createRes with
    | error e =>
      refine ⟨?_, ?_⟩
      · intro entities _ txID hcr
        exact absurd hcr (by simp)
      · intro hs
        exact absurd hs (by simp)
    | ok txID0 =>
      have hall : (TXManager.twoPhaseCommit
            (entities0.map (fun ent => outcome ent.ComponentID))).1 = true
          ↔ entities0.all (fun ent => phase1Ok (outcome ent.ComponentID)) = true := by
        simp only [TXManager.twoPhaseCommit, List.any_map, Function.comp,
          Bool.not_eq_true', List.any_eq_false, Bool.not_eq_false, List.all_eq_true]
        constructor
        · intro h x hx
          exact h _ (List.mem_map_of_mem _ hx)
        · intro h y hy
          obtain ⟨x, hx, rfl⟩ := List.mem_map.mp hy
          exact h x hx
      refine ⟨?_, ?_⟩
      · rintro entities he txID hcr
        obtain rfl : entities0 = entities := by
          injection he
        exact ⟨rfl, hall⟩
      · intro hs
        exact ⟨entities0, txID0, rfl, rfl, hall.mp hs⟩

theorem C1_transaction_amended_witness :
    (TXManager.Transaction (fun _ => true) [{ ComponentID := "a", Request := "p" }]
        (.ok "t") (fun _ => { tryErr := false, ack := true, updateOk := true })).err = none :=
  ((C1_transaction_amended (fun _ => true) [{ ComponentID := "a", Request := "p" }]
      (.ok "t") (fun _ => { tryErr := false, ack := true, updateOk := true }) _ rfl).1
    [{ Request := "p", ComponentID := "a" }] rfl "t" rfl).1

lemma findDup_none_iff : ∀ (ids seen : List String),
    findDup seen ids = none ↔ ids.Nodup ∧ ∀ a ∈ ids, a ∉ seen := by
  intro ids
  induction ids with
  | nil => intro seen; simp [findDup]
  | cons id rest ih =>
    intro seen
    by_cases hc : seen.contains id
    · have hmem : id ∈ seen := by simpa using hc
      simp only [findDup, if_pos hc]
      constructor
      · intro habs; exact absurd habs (by simp)
      · rintro ⟨-, hall⟩
        exact absurd hmem (hall id (List.mem_cons_self id rest))
    · have hmem : id ∉ seen := by simpa using hc
      simp only [findDup, if_neg hc, ih (id :: seen), List.nodup_cons, List.mem_cons, not_or]
      constructor
      · rintro ⟨hnd, hall⟩
        refine ⟨⟨fun hin => (hall id hin).1 rfl, hnd⟩, ?_⟩
        intro a ha
        rcases ha with rfl | ha
        · exact hmem
        · exact (hall a ha).2
      · rintro ⟨⟨hid, hnd⟩, hall⟩
        refine ⟨hnd, ?_⟩
        intro a ha
        exact ⟨fun heq => hid (heq ▸ ha), hall a (Or.inr ha)⟩

lemma findDup_some_count : ∀ (ids seen : List String) (d : String),
    findDup seen ids = some d → d ∈ ids ∧ (d ∈ seen ∨ 2 ≤ ids.count d) := by
  intro ids
  induction ids with
  | nil => intro seen d h; exact absurd h (by simp [findDup])
  | cons id rest ih =>
    intro seen d h
    by_cases hc : seen.contains id
    · rw [findDup, if_pos hc] at h
      injection h with h'
      rw [← h']
      exact ⟨List.mem_cons_self id rest, Or.inl (by simpa using hc)⟩
    · rw [findDup, if_neg hc] at h
      obtain ⟨hmem, hrest⟩ := ih (id :: seen) d h
      refine ⟨List.mem_cons_of_mem id hmem, ?_⟩
      rcases hrest with hseen | hcnt
      · rcases List.mem_cons.mp hseen with rfl | hseen
        · refine Or.inr ?_
          have h1 : 1 ≤ rest.count d := List.count_pos_iff.mpr hmem
          simp only [List.count_cons_self]
          omega
        · exact Or.inl hseen
      · refine Or.inr ?_
        calc 2 ≤ rest.count d := hcnt
          _ ≤ (id :: rest).count d := List.count_le_count_cons d id rest

lemma registryGetComponents_error (registered : String → Bool) :
    ∀ (ids : List String), (∃ id ∈ ids, registered id = false) →
      ∃ u, registryGetComponents registered ids = .error (.notExisted u)
        ∧ registered u = false ∧ u ∈ ids := by
  intro ids
  induction ids with
  | nil => rintro ⟨id, hid, -⟩; exact absurd hid (List.not_mem_nil id)
  | cons id rest ih =>
    rintro ⟨b, hb, hbf⟩
    by_cases hid : registered id
    · have hbrest : b ∈ rest := by
        rcases List.mem_cons.mp hb with rfl | hbr
        · rw [hid] at hbf; exact absurd hbf (by simp)
        · exact hbr
      obtain ⟨u, herr, hu, humem⟩ := ih ⟨b, hbrest, hbf⟩
      refine ⟨u, ?_, hu, List.mem_cons_of_mem id humem⟩
      rw [registryGetComponents, if_pos hid, herr]
    · refine ⟨id, ?_, by simpa using hid, List.mem_cons_self id rest⟩
      rw [registryGetComponents, if_neg hid]

lemma getComponents_validation (registered : String → Bool) (reqs : List RequestEntity) :
    (reqs.length = 0 → TXManager.getComponents registered reqs = .error .emptyTask)
    ∧ (¬ reqs.length = 0 → ¬ (reqs.map (fun rq => rq.ComponentID)).Nodup →
        ∃ d, TXManager.getComponents registered reqs = .error (.repeatComponent d)
          ∧ 2 ≤ (reqs.map (fun rq => rq.ComponentID)).count d)
    ∧ (¬ reqs.length = 0 → (reqs.map (fun rq => rq.ComponentID)).Nodup →
        (∃ rq ∈ reqs, registered rq.ComponentID = false) →
        ∃ u, TXManager.getComponents registered reqs = .error (.notExisted u)
          ∧ registered u = false ∧ u ∈ reqs.map (fun rq => rq.ComponentID)) := by
  refine ⟨?_, ?_, ?_⟩
  · intro hlen
    rw [TXManager.getComponents, if_pos hlen]
  · intro hlen hdup
    have hne : ¬ findDup [] (reqs.map (fun rq => rq.ComponentID)) = none := by
      intro hnone
      exact hdup ((findDup_none_iff _ []).mp hnone).1
    obtain ⟨d, hd⟩ := Option.ne_none_iff_exists'.mp hne
    obtain ⟨-, hcnt⟩ := findDup_some_count _ [] d hd
    refine ⟨d, ?_, ?_⟩
    · rw [TXManager.getComponents, if_neg hlen, hd]
    · rcases hcnt with habs | h2
      · exact absurd habs (List.not_mem_nil d)
      · exact h2
  · intro hlen hdup hex
    have hfd : findDup [] (reqs.map (fun rq => rq.ComponentID)) = none :=
      (findDup_none_iff _ []).mpr ⟨hdup, fun a _ => List.not_mem_nil a⟩
    have hex' : ∃ id ∈ reqs.map (fun rq => rq.ComponentID), registered id = false := by
      obtain ⟨rq, hrq, hf⟩ := hex
      exact ⟨rq.ComponentID, List.mem_map_of_mem _ hrq, hf⟩
    obtain ⟨u, herr, hu, humem⟩ := registryGetComponents_error registered _ hex'
    refine ⟨u, ?_, hu, humem⟩
    rw [TXManager.getComponents, if_neg hlen, hfd, herr]

/-- C4: whenever the request set is empty, contains a duplicate component id,
or references an unregistered component id, `Transaction` returns
`success = false` with the corresponding validation error (`emtpy task`,
`repeat component`, `component id not existed`), and performs no side effect:
`CreateTX` is not called and no participant Try is started. -/
theorem C4_validation (registered : String → Bool) (reqs : List RequestEntity)
    (createRes : Except GoErr String) (outcome : String → TryOutcome) (r : TxCallResult)
    (hr : r = TXManager.Transaction registered reqs createRes outcome)
    (hbad : reqs.length = 0 ∨ ¬ (reqs.map (fun rq => rq.ComponentID)).Nodup
          ∨ ∃ rq ∈ reqs, registered rq.ComponentID = false) :
    r.createCalled = false ∧ r.trysStarted = [] ∧ r.success = false ∧ r.err.isSome = true
    ∧ (reqs.length = 0 → r.err = some .emptyTask)
    ∧ (¬ reqs.length = 0 → ¬ (reqs.map (fun rq => rq.ComponentID)).Nodup →
        ∃ d, r.err = some (.repeatComponent d)
          ∧ 2 ≤ (reqs.map (fun rq => rq.ComponentID)).count d)
    ∧ (¬ reqs.length = 0 → (reqs.map (fun rq => rq.ComponentID)).Nodup →
        (∃ rq ∈ reqs, registered rq.ComponentID = false) →
        ∃ u, r.err = some (.notExisted u) ∧ registered u = false
          ∧ u ∈ reqs.map (fun rq => rq.ComponentID)) := by
  obtain ⟨h1, h2, h3⟩ := getComponents_validation registered reqs
  have herr : ∃ e, TXManager.getComponents registered reqs = .error e := by
    rcases hbad with hb | hb | hb
    · exact ⟨_, h1 hb⟩
    · by_cases hlen : reqs.length = 0
      · exact ⟨_, h1 hlen⟩
      · obtain ⟨d, hd, -⟩ := h2 hlen hb
        exact ⟨_, hd⟩
    · by_cases hlen : reqs.length = 0
      · exact ⟨_, h1 hlen⟩
      · by_cases hdup : (reqs.map (fun rq => rq.ComponentID)).Nodup
        · obtain ⟨u, hu, -, -⟩ := h3 hlen hdup hb
          exact ⟨_, hu⟩
        · obtain ⟨d, hd, -⟩ := h2 hlen hdup
          exact ⟨_, hd⟩
  obtain ⟨e, he⟩ := herr
  have hres : r = ⟨false, [], false, some e⟩ := by
    rw [hr]
    simp only [TXManager.Transaction, he]
  subst hres
  refine ⟨rfl, rfl, rfl, rfl, ?_, ?_, ?_⟩
  · intro hlen
    have hcmp := (h1 hlen).symm.trans he
    obtain rfl : GoErr.emptyTask = e := by injection hcmp
    rfl
  · intro hlen hdup
    obtain ⟨d, hd, hcnt⟩ := h2 hlen hdup
    have hcmp := hd.symm.trans he
    obtain rfl : GoErr.repeatComponent d = e := by injection hcmp
    exact ⟨d, rfl, hcnt⟩
  · intro hlen hdup hex
    obtain ⟨u, hu, huf, humem⟩ := h3 hlen hdup hex
    have hcmp := hu.symm.trans he
    obtain rfl : GoErr.notExisted u = e := by injection hcmp
    exact ⟨u, rfl, huf, humem⟩

theorem C4_validation_witness :
    (TXManager.Transaction (fun _ => true) [] (.ok "t")
        (fun _ => { tryErr := false, ack := true, updateOk := true })).createCalled = false
    ∧ (TXManager.Transaction (fun _ => true) [] (.ok "t")
        (fun _ => { tryErr := false, ack := true, updateOk := true })).trysStarted = []
    ∧ (TXManager.Transaction (fun _ => true) [] (.ok "t")
        (fun _ => { tryErr := false, ack := true, updateOk := true })).err
      = some GoErr.emptyTask :=
  have h := C4_validation (fun _ => true) [] (.ok "t")
    (fun _ => { tryErr := false, ack := true, updateOk := true }) _ rfl (Or.inl rfl)
  ⟨h.1, h.2.1, h.2.2.2.2.1 rfl⟩

end GoTCC
